import Mathlib

/-!
Shallow embedding of the two Streamlit chat front ends of this repository:
`src/app.py` (plain chat) and `src/chart_app.py` (chat plus bar chart).
The embedding covers the session store (the `st.session_state.messages`
list and the stored `thread_id`), the assistant gateway (`get_client`,
`ensure_thread`, `call_assistant` and the submission handler at the bottom
of each file) and the chart extractor (`extract_chart_data`).

Machine-level conventions: Python strings are `String` / `List Char`;
the regex classes `\s` and `\d` are modelled over their ASCII ranges
(the claims only exercise ASCII inputs); `dict` messages
`{"role": r, "content": c}` become the structure `Message`; the remote
OpenAI service is an explicit `RemoteBehavior` record (thread id it would
create, the run status observed at each poll, and the latest message's
content parts), and the network calls a `call_assistant` invocation makes
are recorded as an explicit `Event` trace.
-/

namespace Chat

/-- ASCII whitespace, the characters matched by the regex class `\s`
(space, tab, newline, carriage return, vertical tab, form feed). -/
def pySpace (c : Char) : Bool :=
  c = ' ' || c = '\t' || c = '\n' || c = '\r' || c.toNat = 11 || c.toNat = 12

/-- ASCII decimal digit, the characters matched by the regex class `\d`. -/
def pyDigit (c : Char) : Bool :=
  '0' ≤ c && c ≤ '9'

/-- One attempt of the pattern `([^:]+):\s*(\d+)` anchored at the head of
`s` (src/chart_app.py line 75).  The greedy `[^:]+` takes the maximal
colon-free run; since every shorter split leaves a non-colon character
where `:` must match, backtracking it can never succeed, so the attempt
succeeds exactly when a colon follows that run and, after the maximal
whitespace run, at least one digit appears.  On success it returns the two
capture groups and the remainder of the input after the match. -/
def matchAt (s : List Char) : Option ((List Char × List Char) × List Char) :=
  let lab := s.takeWhile (fun c => c ≠ ':')
  if lab = [] then none
  else
    match s.dropWhile (fun c => c ≠ ':') with
    | ':' :: r2 =>
      let r3 := r2.dropWhile pySpace
      let ds := r3.takeWhile pyDigit
      if ds = [] then none
      else some ((lab, ds), r3.dropWhile pyDigit)
    | _ => none

/-- `re.findall` for the pattern above: scan left to right, on failure
advance one character, on success record the capture groups and resume
after the match (src/chart_app.py line 76).  The fuel argument makes the
recursion structural; every step consumes at least one character, so with
`fuel = s.length` (as used in `findAll`) the fuel never runs out before
the input does and the scan is exact. -/
def findAllAux : Nat → List Char → List (List Char × List Char)
  | 0, _ => []
  | _ + 1, [] => []
  | fuel + 1, c :: cs =>
    match matchAt (c :: cs) with
    | some (g, rest) => g :: findAllAux fuel rest
    | none => findAllAux fuel cs

/-- All non-overlapping matches of `([^:]+):\s*(\d+)` in `s`, in order of
appearance, as pairs of capture groups. -/
def findAll (s : List Char) : List (List Char × List Char) :=
  findAllAux s.length s

/-- Python `str.strip()` restricted to the ASCII whitespace characters:
drop whitespace from both ends. -/
def strip (s : List Char) : List Char :=
  ((s.dropWhile pySpace).reverse.dropWhile pySpace).reverse

/-- Base-10 value of a digit run. -/
def parseDigits (ds : List Char) : Nat :=
  ds.foldl (fun acc c => acc * 10 + (c.toNat - 48)) 0

/-- Python `int(value)` on the captured group: succeeds on a non-empty
all-digit string, yielding its base-10 value.  (Real `int` also accepts
signs and surrounding whitespace; the captures here are digit runs, so
restricting to the digit-only domain is exact on every reachable call.) -/
def pyInt (s : List Char) : Option Nat :=
  if !s.isEmpty && s.all pyDigit then some (parseDigits s) else none

/-- The list comprehension
`[[label.strip(), int(value)] for label, value in matches]` inside the
`try` block of `extract_chart_data` (src/chart_app.py line 83): if any
`int` conversion fails the whole construction fails (the `except` arm
returns the null result), otherwise it yields one row per match. -/
def buildRows : List (List Char × List Char) → Option (List (String × Nat))
  | [] => some []
  | (lab, v) :: rest =>
    match pyInt v with
    | none => none
    | some n =>
      match buildRows rest with
      | none => none
      | some rows => some ((String.mk (strip lab), n) :: rows)

/-- `extract_chart_data` (src/chart_app.py lines 72-89): find all
`label: digits` matches; with zero matches return `none` (the `(None,
None)` result), otherwise build the rows, returning `none` if any value
fails integer parsing.  The returned rows are the rows of the DataFrame
the source builds from `data`. -/
def extract_chart_data (text : String) : Option (List (String × Nat)) :=
  let ms := findAll text.data
  if ms.isEmpty then none else buildRows ms

/-- One stored chat message, the dict
`{"role": "user"|"assistant", "content": str}` kept in
`st.session_state.messages` (src/app.py line 125). -/
structure Message where
  role : String
  content : String
  deriving DecidableEq

/-- The session store: the ordered message history and the optional
stored conversation handle (`st.session_state.messages` and
`st.session_state.thread_id`). -/
structure AppState where
  messages : List Message
  thread_id : Option String
  deriving DecidableEq

/-- One content segment of a remote assistant message: its `type` tag
(`"text"`, `"image_file"`, ...) and, for text segments, the value of
`.text.value`. -/
structure ContentPart where
  type : String
  textValue : String
  deriving DecidableEq

/-- The remote assistant service for one `call_assistant` invocation:
the id `threads.create()` would return, the run status observed at the
k-th poll (k = 0 is the status of the freshly created run), and the
`data` of `messages.list(..., order="desc", limit=1)` — `none` for an
empty `data`, `some parts` for the latest message's content segments. -/
structure RemoteBehavior where
  new_thread_id : String
  statuses : Nat → String
  reply : Option (List ContentPart)

/-- The observable calls a gateway invocation performs: `st.error`
(UI only) and the four network calls to the remote service. -/
inductive Event where
  | show_error (msg : String)
  | create_thread
  | add_message (thread_id role content : String)
  | create_run (thread_id assistant_identifier : String)
  | list_messages (thread_id : String)
  deriving DecidableEq

/-- The hardcoded assistant id (src/app.py line 74). -/
def assistant_id : String := "asst_i9gadw6w4Xd0swmScH5jH4Pv"

/-- The inline error shown when no API key is configured
(src/app.py line 97). -/
def apiKeyError : String := "Please set the OPENAI_API_KEY environment variable ✨"

/-- `get_client` (src/app.py lines 94-99): with no key in the
environment, show the error and return no client; otherwise return the
client (modelled by the key itself), no events. -/
def get_client (env : Option String) : Option String × List Event :=
  match env with
  | none => (none, [Event.show_error apiKeyError])
  | some key => (some key, [])

/-- The replay loop inside `ensure_thread` (src/app.py lines 112-119):
each stored message with role `"user"` is re-submitted, in order, to the
newly created thread; other messages are skipped. -/
def replayEvents (tid : String) : List Message → List Event
  | [] => []
  | m :: ms =>
    if m.role == "user" then
      Event.add_message tid "user" m.content :: replayEvents tid ms
    else replayEvents tid ms

/-- `ensure_thread` (src/app.py lines 102-121): return the stored
thread id if present; otherwise create a thread, store its id, replay the
stored user messages into it, and return it.  The result is the returned
id, the updated session state and the network calls performed. -/
def ensure_thread (remote : RemoteBehavior) (st : AppState) :
    String × AppState × List Event :=
  match st.thread_id with
  | some tid => (tid, st, [])
  | none =>
    (remote.new_thread_id,
     { st with thread_id := some remote.new_thread_id },
     Event.create_thread :: replayEvents remote.new_thread_id st.messages)

/-- The terminal statuses of the polling loop (src/app.py line 154):
`{"completed", "failed", "cancelled", "expired"}`. -/
def terminal (s : String) : Bool :=
  s = "completed" || s = "failed" || s = "cancelled" || s = "expired"

/-- The polling loop (src/app.py lines 154-156): starting from poll
index `k`, return the first terminal status observed; `none` when no
terminal status shows up within `fuel` polls (the source loop has no
bound and would still be running). -/
def pollRun (statuses : Nat → String) : Nat → Nat → Option String
  | 0, _ => none
  | fuel + 1, k =>
    if terminal (statuses k) then some (statuses k)
    else pollRun statuses fuel (k + 1)

/-- The status message returned on a non-completed terminal status
(src/app.py line 159). -/
def statusMessage (s : String) : String :=
  "⚠️ Assistant run ended with status **" ++ s ++ "**."

/-- The fixed placeholder returned when `messages.data` is empty
(src/app.py line 165). -/
def noResponse : String := "(No assistant response)"

/-- Which of the two near-identical front ends is running:
`plain` is src/app.py, `chart` is src/chart_app.py. -/
inductive Variant where
  | plain
  | chart
  deriving DecidableEq

/-- The `enhanced_prompt` f-string of the chart variant
(src/chart_app.py lines 182-188), character for character. -/
def enhanced_prompt (user_text : String) : String :=
  "\n    " ++ user_text ++
    "\n    \n    If the user's request involves data that could be visualized, please include a bar chart.\n    Format the data as a list of lists where each inner list contains [label, value].\n    Example: [[\"Category A\", 10], [\"Category B\", 20]]\n    "

/-- The content each variant submits as the user turn: the plain variant
submits `user_text` itself (src/app.py lines 141-145), the chart variant
submits `enhanced_prompt` (src/chart_app.py lines 194-198). -/
def submittedText : Variant → String → String
  | Variant.plain, t => t
  | Variant.chart, t => enhanced_prompt t

/-- Outcome of one `call_assistant` invocation: a normally returned
reply string, an unhandled Python exception, or a poll loop that has not
reached a terminal status within the modelled number of polls. -/
inductive Outcome where
  | ok (reply : String)
  | exn
  | timeout
  deriving DecidableEq

/-- The chart variant's reply assembly on a completed run
(src/chart_app.py lines 219-227): text segments contribute their value,
`image_file` segments contribute `"[Image]"`, segments of any other type
are skipped, and the collected parts are joined by `" ".join`. -/
def joinParts (parts : List ContentPart) : String :=
  String.intercalate " " (parts.filterMap fun p =>
    if p.type = "text" then some p.textValue
    else if p.type = "image_file" then some "[Image]" else none)

/-- How each variant turns the latest message's content segments into a
result: the plain variant reads `content[0].text.value` (src/app.py
line 164), raising on an empty segment list or a non-text first segment;
the chart variant joins all segments via `joinParts`. -/
def assembleReply : Variant → List ContentPart → Outcome
  | Variant.plain, [] => Outcome.exn
  | Variant.plain, p :: _ =>
    if p.type = "text" then Outcome.ok p.textValue else Outcome.exn
  | Variant.chart, parts => Outcome.ok (joinParts parts)

/-- The network calls made before the poll loop starts: the calls of
`ensure_thread`, then the user-turn submission, then the run creation
(src/app.py lines 138-151). -/
def preRunTrace (v : Variant) (remote : RemoteBehavior) (st : AppState)
    (user_text : String) : List Event :=
  (ensure_thread remote st).2.2 ++
    [Event.add_message (ensure_thread remote st).1 "user" (submittedText v user_text),
     Event.create_run (ensure_thread remote st).1 assistant_id]

/-- `call_assistant` (src/app.py lines 131-165, src/chart_app.py lines
175-228; the two differ only in the submitted content and in the reply
assembly).  With no client it returns `""` at once; otherwise it ensures
a thread, submits the user turn, starts a run, polls to a terminal
status, and either reports a non-completed status or assembles the reply
from the latest message.  The result carries the outcome, the session
state after the call, and the trace of calls performed. -/
def call_assistant (v : Variant) (env : Option String) (remote : RemoteBehavior)
    (fuel : Nat) (st : AppState) (user_text : String) :
    Outcome × AppState × List Event :=
  match get_client env with
  | (none, evs) => (Outcome.ok "", st, evs)
  | (some _, _) =>
    match pollRun remote.statuses fuel 0 with
    | none =>
      (Outcome.timeout, (ensure_thread remote st).2.1, preRunTrace v remote st user_text)
    | some final =>
      if final ≠ "completed" then
        (Outcome.ok (statusMessage final), (ensure_thread remote st).2.1,
         preRunTrace v remote st user_text)
      else
        match remote.reply with
        | none =>
          (Outcome.ok noResponse, (ensure_thread remote st).2.1,
           preRunTrace v remote st user_text ++ [Event.list_messages (ensure_thread remote st).1])
        | some parts =>
          (assembleReply v parts, (ensure_thread remote st).2.1,
           preRunTrace v remote st user_text ++ [Event.list_messages (ensure_thread remote st).1])

/-- The submission handler at the bottom of each file (src/app.py lines
186-203): append the user message to the history, call the assistant,
append the returned reply as an assistant message.  `none` when the
script run did not reach the final append (unhandled exception or a poll
loop still running). -/
def handle_submission (v : Variant) (env : Option String) (remote : RemoteBehavior)
    (fuel : Nat) (st : AppState) (user_input : String) : Option AppState :=
  let stU : AppState := { st with messages := st.messages ++ [⟨"user", user_input⟩] }
  match call_assistant v env remote fuel stU user_input with
  | (Outcome.ok reply, st2, _) =>
    some { st2 with messages := st2.messages ++ [⟨"assistant", reply⟩] }
  | _ => none

/-- A whole interactive session: process the submissions in order, each
against its own remote behavior and poll bound, stopping if one does not
complete. -/
def processAll (v : Variant) (env : Option String) :
    AppState → List (String × RemoteBehavior × Nat) → Option AppState
  | st, [] => some st
  | st, (input, remote, fuel) :: rest =>
    match handle_submission v env remote fuel st input with
    | none => none
    | some st1 => processAll v env st1 rest

/-- A history that is an alternation of user and assistant entries,
in pairs. -/
def isDialogue : List Message → Bool
  | [] => true
  | [_] => false
  | u :: a :: rest =>
    (u.role == "user") && (a.role == "assistant") && isDialogue rest

/-- The contents of the user messages of a history, in order. -/
def userContents (l : List Message) : List String :=
  (l.filter fun m => m.role == "user").map Message.content

/-- The contents of the user turns submitted in a trace, in order. -/
def userTurnContents (evs : List Event) : List String :=
  evs.filterMap fun e =>
    match e with
    | Event.add_message _ r c => if r == "user" then some c else none
    | _ => none

/-- The network calls of a trace (everything except `st.error`). -/
def networkEvents (evs : List Event) : List Event :=
  evs.filter fun e =>
    match e with
    | Event.show_error _ => false
    | _ => true

/-- A remote behavior used in concrete instances: one text segment
`"ok"`, immediately completed run. -/
def remote0 : RemoteBehavior :=
  ⟨"thread_1", fun _ => "completed", some [⟨"text", "ok"⟩]⟩

/-- A remote behavior whose run expires at once, with no reply. -/
def remoteExpired : RemoteBehavior :=
  ⟨"thread_1", fun _ => "expired", none⟩

/-- A remote behavior answering with two text segments. -/
def remoteTwoTexts : RemoteBehavior :=
  ⟨"thread_1", fun _ => "completed", some [⟨"text", "a"⟩, ⟨"text", "b"⟩]⟩

/-- A remote behavior answering with a text, an image and another text
segment. -/
def remoteMixed : RemoteBehavior :=
  ⟨"thread_1", fun _ => "completed", some [⟨"text", "a"⟩, ⟨"image_file", ""⟩, ⟨"text", "b"⟩]⟩

/-- A successful match captures a non-empty digit run as its second
group. -/
lemma matchAt_digits {s : List Char} {g : List Char × List Char} {rest : List Char}
    (h : matchAt s = some (g, rest)) : g.2 ≠ [] ∧ g.2.all pyDigit = true := by
  simp only [matchAt] at h
  split at h
  · exact absurd h (by simp)
  · split at h
    · split at h
      · exact absurd h (by simp)
      · rename_i hds
        rw [Option.some.injEq, Prod.mk.injEq] at h
        obtain ⟨hg, -⟩ := h
        subst hg
        exact ⟨hds, List.all_eq_true.mpr fun x hx => List.mem_takeWhile_imp hx⟩
    · exact absurd h (by simp)

/-- Every value captured by the scan is a non-empty digit run. -/
lemma findAllAux_digits :
    ∀ (fuel : Nat) (s : List Char) (p : List Char × List Char),
      p ∈ findAllAux fuel s → p.2 ≠ [] ∧ p.2.all pyDigit = true := by
  intro fuel
  induction fuel with
  | zero => intro s p hp; simp [findAllAux] at hp
  | succ n ih =>
    intro s p hp
    match s with
    | [] => simp [findAllAux] at hp
    | c :: cs =>
      rw [findAllAux] at hp
      cases hm : matchAt (c :: cs) with
      | none => rw [hm] at hp; exact ih cs p hp
      | some gr =>
        obtain ⟨g, rest⟩ := gr
        rw [hm] at hp
        rcases List.mem_cons.mp hp with h1 | h2
        · subst h1; exact matchAt_digits hm
        · exact ih rest p h2

/-- Building the rows succeeds, one row per match, whenever every
captured value is a non-empty digit run. -/
lemma buildRows_total :
    ∀ ms : List (List Char × List Char),
      (∀ p ∈ ms, p.2 ≠ [] ∧ p.2.all pyDigit = true) →
      ∃ rows, buildRows ms = some rows ∧ rows.length = ms.length := by
  intro ms
  induction ms with
  | nil => intro _; exact ⟨[], rfl, rfl⟩
  | cons hd tl ih =>
    intro hall
    obtain ⟨a, b⟩ := hd
    obtain ⟨hne, hdig⟩ := hall (a, b) (List.mem_cons_self _ _)
    obtain ⟨rows, hb, hlen⟩ := ih fun p hp => hall p (List.mem_cons_of_mem _ hp)
    have hint : pyInt b = some (parseDigits b) := by
      have hne' : b.isEmpty = false := by
        simpa [List.isEmpty_iff] using hne
      simp [pyInt, hne', hdig]
    exact ⟨(String.mk (strip a), parseDigits b) :: rows,
      by simp [buildRows, hint, hb], by simp [hlen]⟩

/-- `ensure_thread` never touches the message history. -/
lemma ensure_thread_messages (remote : RemoteBehavior) (st : AppState) :
    (ensure_thread remote st).2.1.messages = st.messages := by
  obtain ⟨msgs, tid⟩ := st
  cases tid <;> rfl

/-- `call_assistant` never touches the message history; only the
surrounding handler appends to it. -/
lemma call_assistant_messages (v : Variant) (env : Option String)
    (remote : RemoteBehavior) (fuel : Nat) (st : AppState) (t : String) :
    (call_assistant v env remote fuel st t).2.1.messages = st.messages := by
  cases env with
  | none => rfl
  | some key =>
    rcases hp : pollRun remote.statuses fuel 0 with _ | final
    · simp [call_assistant, get_client, hp, ensure_thread_messages]
    · by_cases hf : final = "completed"
      · rcases hr : remote.reply with _ | parts <;>
          simp [call_assistant, get_client, hp, hf, hr, ensure_thread_messages]
      · simp [call_assistant, get_client, hp, hf, ensure_thread_messages]

/-- The replay loop submits exactly the user messages, in their stored
order, skipping the assistant ones. -/
lemma replayEvents_eq (tid : String) (ms : List Message) :
    replayEvents tid ms =
      (ms.filter fun m => m.role == "user").map
        (fun m => Event.add_message tid "user" m.content) := by
  induction ms with
  | nil => rfl
  | cons m ms ih =>
    cases hm : (m.role == "user") <;> simp [replayEvents, List.filter_cons, hm, ih]

/-- A submission that completes appends exactly one user and one
assistant entry to the history. -/
lemma handle_submission_shape (v : Variant) (env : Option String)
    (remote : RemoteBehavior) (fuel : Nat) (st st' : AppState) (input : String)
    (h : handle_submission v env remote fuel st input = some st') :
    ∃ reply, st'.messages = st.messages ++ [⟨"user", input⟩, ⟨"assistant", reply⟩] := by
  simp only [handle_submission] at h
  rcases hc : call_assistant v env remote fuel
      { st with messages := st.messages ++ [⟨"user", input⟩] } input with ⟨res, st2, evs⟩
  rw [hc] at h
  have hmsg : st2.messages = st.messages ++ [⟨"user", input⟩] := by
    have h2 := call_assistant_messages v env remote fuel
      { st with messages := st.messages ++ [⟨"user", input⟩] } input
    rw [hc] at h2
    exact h2
  cases res with
  | ok reply =>
    refine ⟨reply, ?_⟩
    simp only [Option.some.injEq] at h
    rw [← h]
    simp [hmsg]
  | exn => simp at h
  | timeout => simp at h

/-- With a stored handle, the trace of a gateway call starts with the
user-turn submission followed by the run creation, and no further user
turn is submitted. -/
lemma trace_with_thread (v : Variant) (key : String) (remote : RemoteBehavior)
    (fuel : Nat) (st : AppState) (text tid : String) (h : st.thread_id = some tid) :
    ∃ rest, (call_assistant v (some key) remote fuel st text).2.2 =
      Event.add_message tid "user" (submittedText v text) ::
        Event.create_run tid assistant_id :: rest ∧
      userTurnContents rest = [] := by
  have het : ensure_thread remote st = (tid, st, []) := by
    obtain ⟨msgs, tid'⟩ := st
    cases tid' with
    | none => simp at h
    | some t0 =>
      simp only [Option.some.injEq] at h
      subst h
      rfl
  rcases hp : pollRun remote.statuses fuel 0 with _ | final
  · exact ⟨[], by simp [call_assistant, get_client, hp, preRunTrace, het], rfl⟩
  · by_cases hf : final = "completed"
    · rcases hr : remote.reply with _ | parts
      · exact ⟨[Event.list_messages tid],
          by simp [call_assistant, get_client, hp, hf, hr, preRunTrace, het], rfl⟩
      · exact ⟨[Event.list_messages tid],
          by simp [call_assistant, get_client, hp, hf, hr, preRunTrace, het], rfl⟩
    · exact ⟨[], by simp [call_assistant, get_client, hp, hf, preRunTrace, het], rfl⟩

/-- C1 (counterexample): on the input `"Category A: 71, Category B: 5"`
the extractor does not return the two rows the claim states: the second
captured label is the full pre-colon text `", Category B"`, whose
leading comma survives the whitespace-only strip. -/
theorem extract_example_not_as_specified :
    extract_chart_data "Category A: 71, Category B: 5" ≠
      some [("Category A", 71), ("Category B", 5)] := by decide

/-- C1 (amended): for the input `"Category A: 71, Category B: 5"` the
extractor returns exactly two rows, in order of appearance,
`("Category A", 71)` followed by `(", Category B", 5)`: each label is
the text before its colon with surrounding whitespace trimmed (the comma
and space before `Category B` belong to that text, and only whitespace
is trimmed, so the comma remains) and each value is the digit run parsed
as a base-10 integer. -/
theorem extract_example_rows :
    extract_chart_data "Category A: 71, Category B: 5" =
      some [("Category A", 71), (", Category B", 5)] := by decide

set_option maxRecDepth 8192 in
/-- C2 (counterexample): the chart variant does not submit the user
text verbatim: for the submission `"hi"` the user turn submitted on the
conversation handle is the chart-instruction template with `"hi"`
embedded in it, not `"hi"`. -/
theorem chart_variant_modifies_user_turn :
    userTurnContents (call_assistant Variant.chart (some "k") remote0 1
      ⟨[], some "t"⟩ "hi").2.2 ≠ ["hi"] := by decide

/-- C2 (amended): on a session with an existing conversation handle,
the plain variant submits exactly the given user text, verbatim, as the
single user turn, before starting the run; the chart variant instead
submits the text embedded in the fixed chart-instruction template
(`enhanced_prompt`), which always differs from the given text. -/
theorem submitted_user_turn (key : String) (remote : RemoteBehavior) (fuel : Nat)
    (st : AppState) (text tid : String) (h : st.thread_id = some tid) :
    userTurnContents (call_assistant Variant.plain (some key) remote fuel st text).2.2 =
      [text] ∧
    userTurnContents (call_assistant Variant.chart (some key) remote fuel st text).2.2 =
      [enhanced_prompt text] ∧
    (∃ rest, (call_assistant Variant.plain (some key) remote fuel st text).2.2 =
      Event.add_message tid "user" text :: Event.create_run tid assistant_id :: rest) ∧
    enhanced_prompt text ≠ text := by
  obtain ⟨r1, h1, h1u⟩ := trace_with_thread Variant.plain key remote fuel st text tid h
  obtain ⟨r2, h2, h2u⟩ := trace_with_thread Variant.chart key remote fuel st text tid h
  have hstep : ∀ (tid s aid : String) (r : List Event),
      userTurnContents (Event.add_message tid "user" s ::
        Event.create_run tid aid :: r) = s :: userTurnContents r :=
    fun _ _ _ _ => rfl
  refine ⟨?_, ?_, ⟨r1, h1⟩, ?_⟩
  · rw [h1, hstep, h1u]; rfl
  · rw [h2, hstep, h2u]; rfl
  · intro hEq
    have hl := congrArg String.length hEq
    simp only [enhanced_prompt] at hl
    rw [String.length_append, String.length_append] at hl
    have hA : 0 < ("\n    " : String).length := by decide
    omega

/-- C2 (witness): the amended statement at a concrete session with a
stored handle `"t"` and submission `"hi"`. -/
theorem submitted_user_turn_example :
    userTurnContents (call_assistant Variant.plain (some "k") remote0 1
        ⟨[], some "t"⟩ "hi").2.2 = ["hi"] ∧
    userTurnContents (call_assistant Variant.chart (some "k") remote0 1
        ⟨[], some "t"⟩ "hi").2.2 = [enhanced_prompt "hi"] ∧
    (∃ rest, (call_assistant Variant.plain (some "k") remote0 1 ⟨[], some "t"⟩ "hi").2.2 =
      Event.add_message "t" "user" "hi" :: Event.create_run "t" assistant_id :: rest) ∧
    enhanced_prompt "hi" ≠ "hi" :=
  submitted_user_turn "k" remote0 1 ⟨[], some "t"⟩ "hi" "t" rfl

/-- C3 (counterexample): with no API key configured, a user submission
does not leave the message history unchanged: submitting `"hi"` on an
empty session appends the user message and an empty assistant message. -/
theorem missing_key_still_appends :
    handle_submission Variant.plain none remote0 0 ⟨[], none⟩ "hi" =
      some ⟨[⟨"user", "hi"⟩, ⟨"assistant", ""⟩], none⟩ ∧
    ([⟨"user", "hi"⟩, ⟨"assistant", ""⟩] : List Message) ≠ ([] : List Message) :=
  ⟨by decide, by decide⟩

/-- C3 (amended): when no API key is configured, the gateway surfaces
the user-visible configuration error, attempts no network call, and
returns the empty reply with the session state it was given unchanged;
the surrounding submission handler, however, still appends the user
message and an empty assistant message, so the session's message
history is not left unchanged. -/
theorem missing_key_aborts_before_network (v : Variant) (remote : RemoteBehavior)
    (fuel : Nat) (st : AppState) (input : String) :
    call_assistant v none remote fuel st input =
      (Outcome.ok "", st, [Event.show_error apiKeyError]) ∧
    networkEvents (call_assistant v none remote fuel st input).2.2 = [] ∧
    handle_submission v none remote fuel st input =
      some { st with
        messages := st.messages ++ [⟨"user", input⟩, ⟨"assistant", ""⟩] } := by
  refine ⟨rfl, rfl, ?_⟩
  simp [handle_submission, call_assistant, get_client]

/-- C4 (counterexample): when the most recent assistant message has two
text segments `"a"` and `"b"`, the plain variant's reply is `"a"`, not
the space-joined concatenation of all segments, so the claim fails for
that gateway. -/
theorem plain_variant_first_segment_only :
    (call_assistant Variant.plain (some "k") remoteTwoTexts 1 ⟨[], some "t"⟩ "q").1 =
      Outcome.ok "a" ∧
    (call_assistant Variant.plain (some "k") remoteTwoTexts 1 ⟨[], some "t"⟩ "q").1 ≠
      Outcome.ok (String.intercalate " " (([⟨"text", "a"⟩, ⟨"text", "b"⟩] :
          List ContentPart).filterMap fun p =>
        if p.type = "text" then some p.textValue
        else if p.type = "image_file" then some "[Image]" else none)) :=
  ⟨by decide, by decide⟩

/-- C4 (amended): when a run reaches the status `completed`, the chart
variant's reply equals the content segments of the most recent assistant
message joined in their original order separated by a single space, with
text segments inserted verbatim, image segments replaced by the fixed
placeholder `"[Image]"`, and segments of any other type omitted; the
plain variant instead returns only the text value of the first segment
(when that segment is a text segment). -/
theorem completed_reply_assembly (key : String) (remote : RemoteBehavior) (fuel : Nat)
    (st : AppState) (text : String) (parts : List ContentPart)
    (hpoll : pollRun remote.statuses fuel 0 = some "completed")
    (hreply : remote.reply = some parts) :
    (call_assistant Variant.chart (some key) remote fuel st text).1 =
      Outcome.ok (String.intercalate " " (parts.filterMap fun p =>
        if p.type = "text" then some p.textValue
        else if p.type = "image_file" then some "[Image]" else none)) ∧
    ∀ p ps, parts = p :: ps → p.type = "text" →
      (call_assistant Variant.plain (some key) remote fuel st text).1 =
        Outcome.ok p.textValue := by
  constructor
  · simp [call_assistant, get_client, hpoll, hreply, assembleReply, joinParts]
  · intro p ps hps hp
    subst hps
    simp [call_assistant, get_client, hpoll, hreply, assembleReply, hp]

/-- C4 (witness): on a completed run whose latest message holds the
segments text `"a"`, an image and text `"b"`, the chart variant replies
`"a [Image] b"` and the plain variant replies `"a"`. -/
theorem completed_reply_assembly_example :
    (call_assistant Variant.chart (some "k") remoteMixed 1 ⟨[], some "t"⟩ "q").1 =
      Outcome.ok "a [Image] b" ∧
    (call_assistant Variant.plain (some "k") remoteMixed 1 ⟨[], some "t"⟩ "q").1 =
      Outcome.ok "a" := by
  have h := completed_reply_assembly "k" remoteMixed 1 ⟨[], some "t"⟩ "q"
    [⟨"text", "a"⟩, ⟨"image_file", ""⟩, ⟨"text", "b"⟩] rfl rfl
  exact ⟨h.1.trans (by decide), h.2 ⟨"text", "a"⟩ _ rfl rfl⟩

/-- C5: for every run whose terminal status is not `completed`, both
variants of the gateway return, as an ordinary reply value and not an
exception, the human-readable status message, which contains the
literal status name as a substring. -/
theorem non_completed_status_reported (v : Variant) (key : String)
    (remote : RemoteBehavior) (fuel : Nat) (st : AppState) (text final : String)
    (hpoll : pollRun remote.statuses fuel 0 = some final)
    (hne : final ≠ "completed") :
    (call_assistant v (some key) remote fuel st text).1 =
      Outcome.ok (statusMessage final) ∧
    ∃ pre post, statusMessage final = pre ++ final ++ post := by
  refine ⟨?_, "⚠️ Assistant run ended with status **", "**.", rfl⟩
  simp [call_assistant, get_client, hpoll, hne]

/-- C5 (witness): a run ending in status `expired` yields the status
message, which contains the literal name `expired`. -/
theorem non_completed_status_reported_expired :
    (call_assistant Variant.plain (some "k") remoteExpired 1 ⟨[], some "t"⟩ "q").1 =
      Outcome.ok (statusMessage "expired") ∧
    ∃ pre post, statusMessage "expired" = pre ++ "expired" ++ post :=
  non_completed_status_reported Variant.plain "k" remoteExpired 1 ⟨[], some "t"⟩ "q"
    "expired" (by decide) (by decide)

/-- C6: `ensure_thread` returns the existing handle unchanged, with no
network call, when one is stored; otherwise it creates a new handle,
stores it, and re-submits exactly the stored user messages, in their
original relative order and excluding all assistant messages, before
returning the new handle. -/
theorem ensure_thread_contract (remote : RemoteBehavior) (st : AppState) :
    (∀ tid, st.thread_id = some tid → ensure_thread remote st = (tid, st, [])) ∧
    (st.thread_id = none →
      ensure_thread remote st =
        (remote.new_thread_id,
         { st with thread_id := some remote.new_thread_id },
         Event.create_thread ::
           (st.messages.filter fun m => m.role == "user").map
             (fun m => Event.add_message remote.new_thread_id "user" m.content))) := by
  obtain ⟨msgs, tid0⟩ := st
  constructor
  · intro tid h
    cases tid0 with
    | none => simp at h
    | some t0 =>
      simp only [Option.some.injEq] at h
      subst h
      rfl
  · intro h
    cases tid0 with
    | some t0 => simp at h
    | none => simp [ensure_thread, replayEvents_eq]

/-- C6 (witness): both branches at concrete stores: an existing handle
`"t9"` is returned unchanged, and a store with history
user/assistant/user and no handle replays only the two user messages in
order into the fresh handle. -/
theorem ensure_thread_contract_cases :
    ensure_thread remote0 ⟨[], some "t9"⟩ = ("t9", ⟨[], some "t9"⟩, []) ∧
    ensure_thread remote0
        ⟨[⟨"user", "u1"⟩, ⟨"assistant", "a1"⟩, ⟨"user", "u2"⟩], none⟩ =
      ("thread_1",
       ⟨[⟨"user", "u1"⟩, ⟨"assistant", "a1"⟩, ⟨"user", "u2"⟩], some "thread_1"⟩,
       [Event.create_thread, Event.add_message "thread_1" "user" "u1",
        Event.add_message "thread_1" "user" "u2"]) := by
  constructor
  · exact (ensure_thread_contract remote0 ⟨[], some "t9"⟩).1 "t9" rfl
  · exact ((ensure_thread_contract remote0
      ⟨[⟨"user", "u1"⟩, ⟨"assistant", "a1"⟩, ⟨"user", "u2"⟩], none⟩).2 rfl).trans
      (by decide)

/-- C7: for every sequence of N user submissions processed to
completion, the history gains exactly 2N entries: the prior history is
preserved as a prefix (never deleted or mutated) and the new entries
alternate user then assistant, in chronological order, with the user
entries carrying the submitted texts in order. -/
theorem history_two_per_submission (v : Variant) (env : Option String) :
    ∀ (steps : List (String × RemoteBehavior × Nat)) (st st' : AppState),
      processAll v env st steps = some st' →
      ∃ extra, st'.messages = st.messages ++ extra ∧
        extra.length = 2 * steps.length ∧
        isDialogue extra = true ∧
        userContents extra = steps.map (fun s => s.1) := by
  intro steps
  induction steps with
  | nil =>
    intro st st' h
    simp only [processAll, Option.some.injEq] at h
    subst h
    exact ⟨[], by simp, rfl, rfl, rfl⟩
  | cons step rest ih =>
    intro st st' h
    obtain ⟨input, remote, fuel⟩ := step
    simp only [processAll] at h
    rcases hh : handle_submission v env remote fuel st input with _ | st1
    · rw [hh] at h; simp at h
    · rw [hh] at h
      obtain ⟨reply, hmsg⟩ := handle_submission_shape v env remote fuel st st1 input hh
      obtain ⟨extra, he, hlen, hdia, hus⟩ := ih st1 st' h
      refine ⟨⟨"user", input⟩ :: ⟨"assistant", reply⟩ :: extra, ?_, ?_, ?_, ?_⟩
      · rw [he, hmsg]; simp
      · simp only [List.length_cons, hlen, List.length_cons]; ring
      · show ((("user" : String) == "user") &&
          ((("assistant" : String) == "assistant") && isDialogue extra)) = true
        rw [hdia]; decide
      · show userContents (⟨"user", input⟩ :: ⟨"assistant", reply⟩ :: extra) =
          input :: rest.map (fun s => s.1)
        have h1 : userContents (⟨"user", input⟩ :: ⟨"assistant", reply⟩ :: extra) =
            input :: userContents extra := rfl
        rw [h1, hus]

/-- C7 (witness): one completed submission `"hi"` on an empty session
yields a history of exactly two entries, user then assistant. -/
theorem history_two_per_submission_example :
    ∃ extra,
      (⟨[⟨"user", "hi"⟩, ⟨"assistant", "ok"⟩], some "thread_1"⟩ : AppState).messages =
        (⟨[], none⟩ : AppState).messages ++ extra ∧
      extra.length = 2 * ([("hi", remote0, 1)] :
        List (String × RemoteBehavior × Nat)).length ∧
      isDialogue extra = true ∧
      userContents extra = [("hi", remote0, 1)].map (fun s => s.1) :=
  history_two_per_submission Variant.plain (some "k") [("hi", remote0, 1)]
    ⟨[], none⟩ ⟨[⟨"user", "hi"⟩, ⟨"assistant", "ok"⟩], some "thread_1"⟩ (by decide)

/-- C8: for every input text in which the pattern (non-colon run, colon,
optional whitespace, one-or-more digits) has zero occurrences, the
extractor returns the null result. -/
theorem extract_no_match_none (text : String)
    (h : findAll text.data = []) : extract_chart_data text = none := by
  simp [extract_chart_data, h]

/-- C8 (witness): the two concrete inputs of the claim:
`"no numbers here"` has no colon at all and `"Bad: abc"` has no digit
after its colon, so both yield null. -/
theorem extract_no_match_none_cases :
    extract_chart_data "no numbers here" = none ∧
    extract_chart_data "Bad: abc" = none :=
  ⟨extract_no_match_none "no numbers here" (by decide),
   extract_no_match_none "Bad: abc" (by decide)⟩

/-- C9: the integer-parsing failure branch of the extractor is
unreachable: for every input text, every captured value is a non-empty
run of digits, so whenever any match exists the row construction (whose
failure would make the whole extraction return null) succeeds, with one
row per match. -/
theorem extract_parse_never_fails (text : String) :
    (∀ p ∈ findAll text.data, p.2 ≠ [] ∧ p.2.all pyDigit = true) ∧
    (findAll text.data ≠ [] →
      ∃ rows, extract_chart_data text = some rows ∧
        rows.length = (findAll text.data).length) := by
  constructor
  · intro p hp; exact findAllAux_digits _ _ p hp
  · intro hne
    obtain ⟨rows, hb, hlen⟩ := buildRows_total (findAll text.data)
      fun p hp => findAllAux_digits _ _ p hp
    refine ⟨rows, ?_, hlen⟩
    have hne' : (findAll text.data).isEmpty = false := by
      simpa [List.isEmpty_iff] using hne
    simp [extract_chart_data, hne', hb]

/-- C9 (witness): on `"A: 1"` the extraction succeeds with as many rows
as matches. -/
theorem extract_parse_never_fails_example :
    ∃ rows, extract_chart_data "A: 1" = some rows ∧
      rows.length = (findAll ("A: 1" : String).data).length :=
  (extract_parse_never_fails "A: 1").2 (by decide)

/-- C10: when the API key is missing, `call_assistant` returns the
empty string (an ordinary reply, never a null value), and the handler
still appends it as an assistant message, so the history grows by two
entries even on a configuration error. -/
theorem missing_key_empty_reply_appended (v : Variant) (remote : RemoteBehavior)
    (fuel : Nat) (st : AppState) (input : String) :
    (call_assistant v none remote fuel st input).1 = Outcome.ok "" ∧
    ∃ st', handle_submission v none remote fuel st input = some st' ∧
      st'.messages = st.messages ++ [⟨"user", input⟩, ⟨"assistant", ""⟩] ∧
      st'.messages.length = st.messages.length + 2 := by
  refine ⟨rfl,
    ⟨{ st with messages := st.messages ++ [⟨"user", input⟩, ⟨"assistant", ""⟩] },
     ?_, rfl, by simp⟩⟩
  simp [handle_submission, call_assistant, get_client]

end Chat
